import Mathlib

/-!
Verification development for the ForgeRock embedded login helper library.

The definitions below are a shallow embedding of the main module
(the file defining the full `embeddedLogin` prototype with success,
failure, handleCallbackResponse, renderAllCallbacks, handleLoginSubmit,
submitCallbacks and the renderXxxCallback family).  JavaScript values
appearing in the exchanged JSON are modelled by the inductive `JSVal`;
property access on a failed lookup (the boolean `false` returned by
`findName`) is modelled explicitly, since in JavaScript reading a
property of a boolean primitive yields `undefined` rather than
throwing.  Places where the source would actually throw a TypeError
(reading or writing a property of `undefined`, calling `.map` or
`.replace` on a value that lacks it) are modelled with `Except`.
-/

namespace EmbeddedLogin

/-- JavaScript values as they appear in the authentication JSON and in
the intermediate expressions of the source. -/
inductive JSVal where
  | undefined : JSVal
  | bool (b : Bool) : JSVal
  | num (n : Int) : JSVal
  | str (s : String) : JSVal
  | arr (xs : List JSVal) : JSVal
  deriving Repr

/-- JavaScript truthiness for the modelled values: undefined and false
and zero and the empty string are falsy, arrays (objects) are truthy. -/
def JSVal.truthy : JSVal → Bool
  | .undefined => false
  | .bool b => b
  | .num n => n != 0
  | .str s => s != ""
  | .arr _ => true

/-- Strict equality of a modelled value against a string literal, as in
the source comparison of messageType value with the string 4. -/
def JSVal.eqStr (v : JSVal) (s : String) : Bool :=
  match v with
  | .str t => t == s
  | _ => false

/-- Strict equality of a modelled value against a number, as in the
comparisons of defaultOption value and of the input value with a key. -/
def JSVal.eqNum (v : JSVal) (n : Int) : Bool :=
  match v with
  | .num m => m == n
  | _ => false

/-- Reading the length property: strings and arrays have one, every
other modelled value gives undefined. -/
def JSVal.lengthProp : JSVal → JSVal
  | .str s => .num s.length
  | .arr xs => .num xs.length
  | _ => .undefined

/-- One entry of a callback output sequence: an object with a name and
a value, as produced by the server. -/
structure OutputEntry where
  name : String
  value : JSVal
  deriving Repr

/-- One entry of a callback input sequence: an object with a name and
a value, mutated by handleLoginSubmit. -/
structure InputEntry where
  name : String
  value : JSVal
  deriving Repr

/-- The input field of a callback descriptor.  Server-issued
descriptors carry a JSON array of entries; the synthetic login button
built by renderAllCallbacks instead carries a plain object with index,
name and value fields. -/
inductive CallbackInput where
  | list (entries : List InputEntry) : CallbackInput
  | obj (index : Int) (name : String) (value : JSVal) : CallbackInput
  deriving Repr

/-- Reading the value property of the input field, as the source does
in renderHiddenValueCallback and in the ChoiceCallback active check.
A JSON array has no value property, so the read yields undefined. -/
def CallbackInput.dotValue : CallbackInput → JSVal
  | .list _ => .undefined
  | .obj _ _ v => v

/-- One callback descriptor of the authentication exchange. -/
structure Callback where
  type : String
  input : CallbackInput
  output : List OutputEntry
  deriving Repr

/-- The JSON object exchanged each round trip.  Absent fields are
modelled with none; a JSON field can never hold undefined. -/
structure AuthExchange where
  tokenId : Option JSVal := none
  authId : Option JSVal := none
  code : Option JSVal := none
  callbacks : List Callback := []
  deriving Repr

/-- Faults raised where the JavaScript source would throw a TypeError. -/
inductive JSFault where
  | typeError : JSFault
  deriving Repr, DecidableEq

/-- Source findName: array.reduce keeping the first item whose name
matches, with initial accumulator false.  The first matching entry is
returned; none models the boolean false result. -/
def findName (array : List OutputEntry) (name : String) : Option OutputEntry :=
  array.find? (fun item => item.name == name)

/-- Reading the value property of a findName result.  When the lookup
failed the base is the boolean primitive false, and a property read on
a boolean yields undefined without throwing. -/
def dotValue (found : Option OutputEntry) : JSVal :=
  match found with
  | none => .undefined
  | some e => e.value

/-- Source success: double negation of currentCallbacks.tokenId. -/
def success (e : AuthExchange) : Bool :=
  match e.tokenId with
  | none => false
  | some v => v.truthy

/-- Source failure: authId is undefined and code is strictly equal to
the number 401. -/
def failure (e : AuthExchange) : Bool :=
  (match e.authId with | none => true | some _ => false) &&
    (match e.code with | some v => v.eqNum 401 | none => false)

/-- The three outcomes of handleCallbackResponse. -/
inductive Classification where
  | success : Classification
  | failure : Classification
  | continuation : Classification
  deriving Repr, DecidableEq

/-- Source handleCallbackResponse: check success first, then failure,
otherwise render the callbacks for another round. -/
def classify (e : AuthExchange) : Classification :=
  if success e then .success
  else if failure e then .failure
  else .continuation

/-- The name attribute given to the form field of the callback at the
given ordinal position. -/
def cbFieldName (index : Nat) : String := "callback_" ++ toString index

/-- Source regex replace of a single trailing colon in the prompt. -/
def stripTrailingColon (s : String) : String :=
  match s.data.getLast? with
  | some ':' => String.mk s.data.dropLast
  | _ => s

/-- The prompt computation at the top of renderCallback: the prompt
output entry is used when found with a truthy value of truthy length;
calling replace on a non-string value with a length is a TypeError. -/
def computePrompt (output : List OutputEntry) : Except JSFault String :=
  match findName output "prompt" with
  | none => .ok ""
  | some p =>
      if p.value.truthy && p.value.lengthProp.truthy then
        match p.value with
        | .str s => .ok (stripTrailingColon s)
        | _ => .error .typeError
      else .ok ""

/-- One entry of the choices list built in the ChoiceCallback case. -/
structure ChoiceOpt where
  active : Bool
  key : Nat
  value : JSVal
  deriving Repr

/-- One rendered unit, a structured form of the HTML fragment each
renderXxx method builds.  Each constructor field is one interpolation
hole of the corresponding source template; fixed attribute text such
as the empty value of the hidden field template is kept explicit. -/
inductive RenderedUnit where
  | textInput (name : String) (value : JSVal) (placeholder : String) : RenderedUnit
  | passwordInput (name : String) (value : JSVal) (placeholder : String) : RenderedUnit
  | textArea (name : String) (value : JSVal) : RenderedUnit
  | script (content : JSVal) : RenderedUnit
  | messageBlock (id : String) (severity : JSVal) (message : JSVal) : RenderedUnit
  | submitControl (name : String) (key : Nat) (value : JSVal) (isDefault : Bool) : RenderedUnit
  | choiceSelect (name : String) (label : String) (options : List ChoiceOpt) : RenderedUnit
  | hiddenField (id : JSVal) (name : String) (value : String) : RenderedUnit
  | reCaptcha (siteKey : JSVal) (name : String) : RenderedUnit
  deriving Repr

/-- A timer scheduled with setTimeout during rendering.  The closure
scheduled by the PollingWaitCallback case only sets the
pollingInProgress flag to true; it performs no submission, which the
resubmits field records. -/
structure Timer where
  delay : JSVal
  setsPollingInProgress : Bool
  resubmits : Bool
  deriving Repr

/-- The browser-level form built and auto-submitted by the
RedirectCallback case. -/
structure NavAction where
  url : JSVal
  method : JSVal
  data : List JSVal
  deriving Repr

/-- Everything renderCallback produces: rendered units, scheduled
timers, and an optional page navigation. -/
structure RenderEff where
  units : List RenderedUnit
  timers : List Timer
  nav : Option NavAction
  deriving Repr

/-- Reading input[0].value, as the text-style render methods do.  The
read throws when the input sequence is empty or when the input is the
object shape, whose property 0 is undefined. -/
def input0value : CallbackInput → Except JSFault JSVal
  | .list (e :: _) => .ok e.value
  | .list [] => .error .typeError
  | .obj _ _ _ => .error .typeError

/-- Source renderNameCallback: a text input seeded from input[0].value
with the prompt as placeholder. -/
def renderNameCallback (cb : Callback) (index : Nat) (prompt : String) :
    Except JSFault RenderedUnit :=
  match input0value cb.input with
  | .error f => .error f
  | .ok v => .ok (.textInput (cbFieldName index) v prompt)

/-- Source renderPasswordCallback: a password input seeded from
input[0].value with the prompt as placeholder. -/
def renderPasswordCallback (cb : Callback) (index : Nat) (prompt : String) :
    Except JSFault RenderedUnit :=
  match input0value cb.input with
  | .error f => .error f
  | .ok v => .ok (.passwordInput (cbFieldName index) v prompt)

/-- Source renderTextInputCallback: a textarea seeded from
input[0].value; the prompt parameter is not used by the template. -/
def renderTextInputCallback (cb : Callback) (index : Nat) :
    Except JSFault RenderedUnit :=
  match input0value cb.input with
  | .error f => .error f
  | .ok v => .ok (.textArea (cbFieldName index) v)

/-- Source renderTextOutputScript: a script element whose content is
the message value verbatim. -/
def renderTextOutputScript (index : Nat) (messageValue : JSVal) : RenderedUnit :=
  .script messageValue

/-- Source renderTextOutputMessage: a div with id callback_index, the
type value as class, and the message value as content. -/
def renderTextOutputMessage (index : Nat) (messageValue : JSVal) (typeValue : JSVal) :
    RenderedUnit :=
  .messageBlock (cbFieldName index) typeValue messageValue

/-- Source renderConfirmationCallbackOption: one submit input carrying
the option value; the isDefault argument is the marking computed by the
ConfirmationCallback case. -/
def renderConfirmationCallbackOption (option : JSVal) (index : Nat) (key : Nat)
    (isDefault : Bool) : RenderedUnit :=
  .submitControl (cbFieldName index) key option isDefault

/-- Source renderChoiceCallback: a labelled select listing the given
choices, each option selected exactly when its active flag is set. -/
def renderChoiceCallback (cb : Callback) (index : Nat) (prompt : String)
    (choices : List ChoiceOpt) : RenderedUnit :=
  .choiceSelect (cbFieldName index) prompt choices

/-- Source renderHiddenValueCallback: a hidden input whose id is the
value property of the descriptor input and whose value attribute is the
empty string written literally in the template. -/
def renderHiddenValueCallback (cb : Callback) (index : Nat) : RenderedUnit :=
  .hiddenField cb.input.dotValue (cbFieldName index) ""

/-- Source renderPollingWaitCallback of the main module: the template
is the same hidden input as renderHiddenValueCallback and the message
parameter is not used. -/
def renderPollingWaitCallback (cb : Callback) (index : Nat) (message : JSVal) :
    RenderedUnit :=
  .hiddenField cb.input.dotValue (cbFieldName index) ""

/-- Source renderReCaptchaCallback: the site key is read from
output[0].value, which throws when the output sequence is empty. -/
def renderReCaptchaCallback (cb : Callback) (index : Nat) :
    Except JSFault RenderedUnit :=
  match cb.output.head? with
  | some e => .ok (.reCaptcha e.value (cbFieldName index))
  | none => .error .typeError

/-- Source messageTypeMap: an object literal with the numeric keys 0, 1
and 2, indexed with the messageType value.  Property lookup converts
the key to a string, so both the string and the number forms of 0, 1
and 2 hit the mapping; anything else reads as undefined. -/
def messageTypeMap (v : JSVal) : JSVal :=
  match v with
  | .str "0" => .str "INFORMATION"
  | .str "1" => .str "WARNING"
  | .str "2" => .str "ERROR"
  | .num 0 => .str "INFORMATION"
  | .num 1 => .str "WARNING"
  | .num 2 => .str "ERROR"
  | _ => .undefined

/-- The default marking of the ConfirmationCallback case: when more
than one option exists the defaultOption output decides, and a failed
lookup marks nothing; with at most one option the object literal with
value 0 is used, so the sole option is marked. -/
def confirmationDefault (output : List OutputEntry) (len : Nat) (key : Nat) : Bool :=
  match (if 1 < len then (findName output "defaultOption").map (fun e => e.value)
         else some (.num 0)) with
  | some v => v.eqNum key
  | none => false

/-- Source renderCallback: compute the prompt, then dispatch on the
type tag. -/
def renderCallback (cb : Callback) (index : Nat) : Except JSFault RenderEff :=
  match computePrompt cb.output with
  | .error f => .error f
  | .ok prompt =>
  match cb.type with
  | "NameCallback" =>
      match renderNameCallback cb index prompt with
      | .error f => .error f
      | .ok u => .ok ⟨[u], [], none⟩
  | "PasswordCallback" =>
      match renderPasswordCallback cb index prompt with
      | .error f => .error f
      | .ok u => .ok ⟨[u], [], none⟩
  | "TextInputCallback" =>
      match renderTextInputCallback cb index with
      | .error f => .error f
      | .ok u => .ok ⟨[u], [], none⟩
  | "TextOutputCallback" =>
      let type := findName cb.output "messageType"
      let message := findName cb.output "message"
      if (dotValue type).eqStr "4" then
        .ok ⟨[renderTextOutputScript index (dotValue message)], [], none⟩
      else
        .ok ⟨[renderTextOutputMessage index (dotValue message)
                (messageTypeMap (dotValue type))], [], none⟩
  | "ConfirmationCallback" =>
      match findName cb.output "options" with
      | some options =>
          match options.value with
          | .undefined => .ok ⟨[], [], none⟩
          | .arr opts =>
              .ok ⟨opts.mapIdx (fun key opt =>
                      renderConfirmationCallbackOption opt index key
                        (confirmationDefault cb.output opts.length key)), [], none⟩
          | _ => .error .typeError
      | none => .ok ⟨[], [], none⟩
  | "ChoiceCallback" =>
      match findName cb.output "choices" with
      | some choiceOutput =>
          match choiceOutput.value with
          | .undefined => .ok ⟨[], [], none⟩
          | .arr cs =>
              let choices := cs.mapIdx (fun key option =>
                ChoiceOpt.mk (cb.input.dotValue.eqNum key) key option)
              .ok ⟨[renderChoiceCallback cb index prompt choices], [], none⟩
          | _ => .error .typeError
      | none => .ok ⟨[], [], none⟩
  | "HiddenValueCallback" => .ok ⟨[renderHiddenValueCallback cb index], [], none⟩
  | "RedirectCallback" =>
      match (match findName cb.output "redirectData" with
             | some e =>
                 match e.value with
                 | .arr xs => Except.ok xs
                 | v => if v.truthy then Except.error JSFault.typeError
                        else Except.ok []
             | none => Except.ok ([] : List JSVal)) with
      | .error f => .error f
      | .ok data =>
          .ok ⟨[], [], some ⟨dotValue (findName cb.output "redirectUrl"),
                             dotValue (findName cb.output "redirectMethod"), data⟩⟩
  | "PollingWaitCallback" =>
      let pollingWaitTimeoutMs := dotValue (findName cb.output "waitTime")
      .ok ⟨[renderPollingWaitCallback cb index
              (dotValue (findName cb.output "message"))],
           [⟨pollingWaitTimeoutMs, true, false⟩], none⟩
  | "ReCaptchaCallback" =>
      match renderReCaptchaCallback cb index with
      | .error f => .error f
      | .ok u => .ok ⟨[u], [], none⟩
  | _ =>
      match renderNameCallback cb index prompt with
      | .error f => .error f
      | .ok u => .ok ⟨[u], [], none⟩

/-- The membership test of renderAllCallbacks: the indexOf check over
the three self-confirming type tags. -/
def hasOwnButtonType (t : String) : Bool :=
  t == "ConfirmationCallback" || t == "PollingWaitCallback" || t == "RedirectCallback"

/-- Source needsLoginButton: the negated reduce over the callbacks. -/
def needsLoginButton (cbs : List Callback) : Bool :=
  ! cbs.foldl (fun result cb => result || hasOwnButtonType cb.type) false

/-- Source getLoginButtonText. -/
def getLoginButtonText : String := "Login"

/-- The synthetic login ConfirmationCallback built by
renderAllCallbacks; its input is an object, not a sequence. -/
def loginCallback (len : Nat) : Callback :=
  { type := "ConfirmationCallback"
    input := .obj len "loginButton" (.num 0)
    output := [⟨"options", .arr [.str getLoginButtonText]⟩] }

/-- The descriptor sequence renderAllCallbacks maps over: the current
callbacks, with the synthetic login button concatenated when needed.
The concat builds a new sequence and never mutates the exchange. -/
def callbacksToRender (cbs : List Callback) : List Callback :=
  if needsLoginButton cbs then cbs ++ [loginCallback cbs.length] else cbs

/-- Sequential rendering of a descriptor list starting at a given
ordinal, combining units, timers and the first navigation; the unit
concatenation is the flattening done by joinRenderedCallbacks. -/
def renderSeq : List Callback → Nat → Except JSFault RenderEff
  | [], _ => .ok ⟨[], [], none⟩
  | cb :: rest, i =>
      match renderCallback cb i with
      | .error f => .error f
      | .ok e =>
          match renderSeq rest (i + 1) with
          | .error f => .error f
          | .ok es =>
              .ok ⟨e.units ++ es.units, e.timers ++ es.timers,
                   match e.nav with | some n => some n | none => es.nav⟩

/-- Source renderAllCallbacks: render the sequence produced by
callbacksToRender, indices starting at zero. -/
def renderAllCallbacks (cbs : List Callback) : Except JSFault RenderEff :=
  renderSeq (callbacksToRender cbs) 0

/-- Decimal digit parsing of the captured group, the base ten parseInt
of the source; fails on any non-digit character. -/
def parseDigits : List Char → Nat → Option Nat
  | [], acc => some acc
  | c :: rest, acc =>
      if c.isDigit then parseDigits rest (acc * 10 + (c.toNat - 48)) else none

/-- The regex match of a form field name against callback_ followed by
one or more decimal digits, combined with the base ten parseInt of the
digits. -/
def parseCallbackName (s : String) : Option Nat :=
  match s.data with
  | 'c' :: 'a' :: 'l' :: 'l' :: 'b' :: 'a' :: 'c' :: 'k' :: '_' :: rest =>
      match rest with
      | [] => none
      | _ :: _ => parseDigits rest 0
  | _ => none

/-- Writing input[0].value of one descriptor, as the loop body of
handleLoginSubmit does; the write throws when the input sequence is
empty or has the object shape. -/
def setInput0Value (cb : Callback) (v : JSVal) : Except JSFault Callback :=
  match cb.input with
  | .list (e :: rest) => .ok { cb with input := .list (⟨e.name, v⟩ :: rest) }
  | .list [] => .error .typeError
  | .obj _ _ _ => .error .typeError

/-- One iteration of the handleLoginSubmit loop for a single form data
entry: names that do not match the pattern are skipped; a matching
index beyond the sequence makes the descriptor lookup undefined and
the input access throw. -/
def applyFormEntry (cbs : List Callback) (name : String) (value : JSVal) :
    Except JSFault (List Callback) :=
  match parseCallbackName name with
  | none => .ok cbs
  | some n =>
      match cbs[n]? with
      | some cb =>
          match setInput0Value cb value with
          | .error f => .error f
          | .ok cb2 => .ok (cbs.set n cb2)
      | none => .error .typeError

/-- The whole handleLoginSubmit loop over the form data entries in
order. -/
def applyFormData : List Callback → List (String × JSVal) →
    Except JSFault (List Callback)
  | cbs, [] => .ok cbs
  | cbs, (nm, v) :: rest =>
      match applyFormEntry cbs nm v with
      | .ok cbs2 => applyFormData cbs2 rest
      | .error f => .error f

/-- Source handleLoginSubmit: fold the form data into the current
exchange; the resulting exchange is what submitCallbacks serializes as
the request body. -/
def handleLoginSubmit (e : AuthExchange) (formData : List (String × JSVal)) :
    Except JSFault AuthExchange :=
  match applyFormData e.callbacks formData with
  | .error f => .error f
  | .ok cbs => .ok { e with callbacks := cbs }

/-- One step of the scan for the last form data entry naming a given
descriptor index. -/
def lastFormWriteStep (n : Nat) (acc : Option JSVal) (p : String × JSVal) :
    Option JSVal :=
  match parseCallbackName p.1 with
  | some m => if m = n then some p.2 else acc
  | none => acc

/-- The value of the last form data entry naming a given descriptor
index, if any entry does. -/
def lastFormWrite (formData : List (String × JSVal)) (n : Nat) : Option JSVal :=
  formData.foldl (lastFormWriteStep n) none

theorem JSVal.eqNum_eq_true_iff (v : JSVal) (n : Int) :
    v.eqNum n = true ↔ v = .num n := by
  cases v <;> simp [JSVal.eqNum]

theorem JSVal.eqStr_eq_true_iff (v : JSVal) (s : String) :
    v.eqStr s = true ↔ v = .str s := by
  cases v <;> simp [JSVal.eqStr]

theorem success_eq_true_iff (e : AuthExchange) :
    success e = true ↔ ∃ v, e.tokenId = some v ∧ v.truthy = true := by
  cases htok : e.tokenId <;> simp [success, htok]

theorem failure_eq_true_iff (e : AuthExchange) :
    failure e = true ↔ (e.authId = none ∧ e.code = some (.num 401)) := by
  cases ha : e.authId <;> cases hc : e.code <;>
    simp [failure, ha, hc, JSVal.eqNum_eq_true_iff]

/-- C1: for every stored exchange, classification is success exactly
when tokenId is present and truthy, no matter the other fields; among
non-success exchanges classification is failure exactly when authId is
absent and code is strictly the number 401; in every other case it is
continuation, and a present authId rules failure out even with code
401. -/
theorem classify_spec (e : AuthExchange) :
    (classify e = .success ↔ (∃ v, e.tokenId = some v ∧ v.truthy = true)) ∧
    (classify e = .failure ↔
      (success e = false ∧ e.authId = none ∧ e.code = some (.num 401))) ∧
    (e.authId ≠ none → classify e ≠ .failure) ∧
    (classify e = .continuation ↔
      (success e = false ∧ ¬ (e.authId = none ∧ e.code = some (.num 401)))) := by
  refine ⟨?_, ?_, ?_, ?_⟩
  · rw [← success_eq_true_iff]
    unfold classify
    by_cases hs : success e
    · simp [hs]
    · simp only [Bool.not_eq_true] at hs
      by_cases hf : failure e <;> simp [hs, hf]
  · unfold classify
    by_cases hs : success e
    · simp [hs]
    · simp only [Bool.not_eq_true] at hs
      rw [← failure_eq_true_iff]
      by_cases hf : failure e <;> simp [hs, hf]
  · intro ha hcl
    unfold classify at hcl
    by_cases hs : success e
    · simp [hs] at hcl
    · simp only [Bool.not_eq_true] at hs
      by_cases hf : failure e
      · exact ha (failure_eq_true_iff e |>.mp hf).1
      · simp [hs, hf] at hcl
  · unfold classify
    by_cases hs : success e
    · simp [hs]
    · simp only [Bool.not_eq_true] at hs
      by_cases hf : failure e
      · have := (failure_eq_true_iff e).mp hf
        simp [hs, hf, this]
      · have : ¬ (e.authId = none ∧ e.code = some (.num 401)) := by
          intro hcontra
          exact absurd ((failure_eq_true_iff e).mpr hcontra) (by simp [hf])
        simp [hs, hf, this]

/-- Witness for C1 at three concrete exchanges: a truthy tokenId with
code 401 classifies success, an absent authId with code 401 classifies
failure, and a present authId with code 401 classifies continuation. -/
theorem classify_spec_witness :
    classify ⟨some (.str "token"), none, some (.num 401), []⟩ = .success ∧
    classify ⟨none, none, some (.num 401), []⟩ = .failure ∧
    classify ⟨none, some (.str "ey"), some (.num 401), []⟩ = .continuation := by
  refine ⟨(classify_spec _).1.mpr ⟨.str "token", rfl, rfl⟩,
          (classify_spec _).2.1.mpr ⟨rfl, rfl, rfl⟩,
          (classify_spec _).2.2.2.mpr ⟨rfl, ?_⟩⟩
  simp

theorem needsLoginButton_foldl (cbs : List Callback) (b : Bool) :
    cbs.foldl (fun result cb => result || hasOwnButtonType cb.type) b
      = (b || cbs.any (fun cb => hasOwnButtonType cb.type)) := by
  induction cbs generalizing b with
  | nil => simp
  | cons hd tl ih => simp [List.foldl, ih, Bool.or_assoc]

theorem needsLoginButton_eq_true_iff (cbs : List Callback) :
    needsLoginButton cbs = true ↔ ∀ cb ∈ cbs, hasOwnButtonType cb.type = false := by
  unfold needsLoginButton
  rw [needsLoginButton_foldl]
  simp [List.any_eq_false]

theorem renderSeq_append (xs ys : List Callback) (i : Nat) (e1 e2 : RenderEff)
    (h1 : renderSeq xs i = .ok e1) (h2 : renderSeq ys (i + xs.length) = .ok e2) :
    renderSeq (xs ++ ys) i = .ok ⟨e1.units ++ e2.units, e1.timers ++ e2.timers,
      match e1.nav with | some n => some n | none => e2.nav⟩ := by
  induction xs generalizing i e1 with
  | nil =>
      simp only [renderSeq, List.nil_append] at h1 ⊢
      cases h1
      simpa using h2
  | cons hd tl ih =>
      simp only [renderSeq, List.cons_append] at h1 ⊢
      cases hcb : renderCallback hd i with
      | error f => rw [hcb] at h1; simp at h1
      | ok a =>
          rw [hcb] at h1
          cases hrest : renderSeq tl (i + 1) with
          | error f => rw [hrest] at h1; simp at h1
          | ok b =>
              rw [hrest] at h1
              simp only [Except.ok.injEq] at h1
              have h2s : renderSeq ys (i + 1 + tl.length) = .ok e2 := by
                have harith : i + 1 + tl.length = i + (hd :: tl).length := by
                  simp [List.length_cons]; omega
                rw [harith]; exact h2
              simp only [List.append_eq] at ih ⊢
              rw [ih (i + 1) b hrest h2s]
              subst h1
              simp only [Except.ok.injEq]
              cases a.nav <;> cases b.nav <;> simp [List.append_assoc]

theorem renderCallback_loginCallback (n : Nat) :
    renderCallback (loginCallback n) n =
      .ok ⟨[.submitControl (cbFieldName n) 0 (.str "Login") true], [], none⟩ := rfl

/-- C4: when no descriptor has one of the three self-confirming types,
the rendered sequence is the originals in order followed by exactly one
synthesized login confirmation (a ConfirmationCallback whose only
option is Login); when one of those types is present nothing is
synthesized. -/
theorem renderAllCallbacks_loginButton (cbs : List Callback) (e : RenderEff)
    (hok : renderSeq cbs 0 = .ok e) :
    ((∀ cb ∈ cbs, hasOwnButtonType cb.type = false) →
        callbacksToRender cbs = cbs ++ [loginCallback cbs.length] ∧
        (loginCallback cbs.length).type = "ConfirmationCallback" ∧
        findName (loginCallback cbs.length).output "options" =
          some ⟨"options", .arr [.str "Login"]⟩ ∧
        renderAllCallbacks cbs =
          .ok ⟨e.units ++ [.submitControl (cbFieldName cbs.length) 0 (.str "Login") true],
               e.timers, e.nav⟩) ∧
    ((∃ cb ∈ cbs, hasOwnButtonType cb.type = true) →
        callbacksToRender cbs = cbs ∧ renderAllCallbacks cbs = .ok e) := by
  constructor
  · intro hnone
    have hneed : needsLoginButton cbs = true :=
      (needsLoginButton_eq_true_iff cbs).mpr hnone
    have hctr : callbacksToRender cbs = cbs ++ [loginCallback cbs.length] := by
      unfold callbacksToRender; rw [hneed]; simp
    refine ⟨hctr, rfl, rfl, ?_⟩
    unfold renderAllCallbacks
    rw [hctr]
    have hlogin : renderSeq [loginCallback cbs.length] (0 + cbs.length) =
        .ok ⟨[.submitControl (cbFieldName cbs.length) 0 (.str "Login") true], [], none⟩ := by
      have hz : 0 + cbs.length = cbs.length := by omega
      rw [hz]
      simp [renderSeq, renderCallback_loginCallback, Except.bind]
    rw [renderSeq_append cbs [loginCallback cbs.length] 0 e _ hok hlogin]
    cases hnav : e.nav <;> simp [hnav]
  · rintro ⟨cb, hmem, htype⟩
    have hneed : needsLoginButton cbs = false := by
      cases hn : needsLoginButton cbs with
      | false => rfl
      | true =>
          have := (needsLoginButton_eq_true_iff cbs).mp hn cb hmem
          rw [htype] at this; cases this
    have hctr : callbacksToRender cbs = cbs := by
      unfold callbacksToRender; rw [hneed]; simp
    exact ⟨hctr, by unfold renderAllCallbacks; rw [hctr]; exact hok⟩

/-- Witness for C4: a single NameCallback gets its text input followed
by exactly one synthesized Login submit control; a lone
PollingWaitCallback gets no synthesized control. -/
theorem renderAllCallbacks_loginButton_witness :
    renderAllCallbacks [⟨"NameCallback", .list [⟨"IDToken1", .str ""⟩], []⟩] =
      .ok ⟨[.textInput "callback_0" (.str "") "",
            .submitControl "callback_1" 0 (.str "Login") true], [], none⟩ ∧
    renderAllCallbacks [⟨"PollingWaitCallback", .list [⟨"IDToken1", .str ""⟩],
        [⟨"waitTime", .num 1000⟩, ⟨"message", .str "wait"⟩]⟩] =
      .ok ⟨[.hiddenField .undefined "callback_0" ""],
           [⟨.num 1000, true, false⟩], none⟩ := by
  constructor
  · have h := (renderAllCallbacks_loginButton
        [⟨"NameCallback", .list [⟨"IDToken1", .str ""⟩], []⟩]
        ⟨[.textInput "callback_0" (.str "") ""], [], none⟩ rfl).1
        (by simp [hasOwnButtonType])
    simpa using h.2.2.2
  · have h := (renderAllCallbacks_loginButton
        [⟨"PollingWaitCallback", .list [⟨"IDToken1", .str ""⟩],
          [⟨"waitTime", .num 1000⟩, ⟨"message", .str "wait"⟩]⟩]
        ⟨[.hiddenField .undefined "callback_0" ""], [⟨.num 1000, true, false⟩], none⟩ rfl).2
        ⟨⟨"PollingWaitCallback", .list [⟨"IDToken1", .str ""⟩],
          [⟨"waitTime", .num 1000⟩, ⟨"message", .str "wait"⟩]⟩, by simp, rfl⟩
    exact h.2

/-- The input field of a descriptor after zero or more submit rounds:
either untouched, or a sequence whose head entry kept its name and only
changed its value. -/
def inputValueUpdateOnly (a b : CallbackInput) : Prop :=
  a = b ∨ ∃ nm v0 v rest,
    a = .list (⟨nm, v0⟩ :: rest) ∧ b = .list (⟨nm, v⟩ :: rest)

/-- The relation between the received descriptor sequence and the one
submitted back: same count, and position by position the same type and
output, the input altered at most in its head value. -/
def sequenceShapePreserved (as bs : List Callback) : Prop :=
  bs.length = as.length ∧
  ∀ i, (hi : i < as.length) → (hi2 : i < bs.length) →
    bs[i].type = as[i].type ∧
    bs[i].output = as[i].output ∧
    inputValueUpdateOnly as[i].input bs[i].input

theorem inputValueUpdateOnly_refl (a : CallbackInput) :
    inputValueUpdateOnly a a := Or.inl rfl

theorem inputValueUpdateOnly_trans (a b c : CallbackInput)
    (hab : inputValueUpdateOnly a b) (hbc : inputValueUpdateOnly b c) :
    inputValueUpdateOnly a c := by
  rcases hab with rfl | ⟨nm, v0, v, rest, ha, hb⟩
  · exact hbc
  · rcases hbc with rfl | ⟨nm2, w0, w, rest2, hb2, hc⟩
    · exact Or.inr ⟨nm, v0, v, rest, ha, hb⟩
    · rw [hb] at hb2
      simp only [CallbackInput.list.injEq, List.cons.injEq,
        InputEntry.mk.injEq] at hb2
      obtain ⟨⟨hnm, hv⟩, hrest⟩ := hb2
      refine Or.inr ⟨nm, v0, w, rest, ha, ?_⟩
      rw [hc, ← hnm, ← hrest]

theorem sequenceShapePreserved_refl (as : List Callback) :
    sequenceShapePreserved as as :=
  ⟨rfl, fun _ _ _ => ⟨rfl, rfl, inputValueUpdateOnly_refl _⟩⟩

theorem sequenceShapePreserved_trans (as bs cs : List Callback)
    (h1 : sequenceShapePreserved as bs) (h2 : sequenceShapePreserved bs cs) :
    sequenceShapePreserved as cs := by
  obtain ⟨hl1, hp1⟩ := h1
  obtain ⟨hl2, hp2⟩ := h2
  refine ⟨hl2.trans hl1, fun i hi hi2 => ?_⟩
  have hib : i < bs.length := by omega
  obtain ⟨t1, o1, u1⟩ := hp1 i hi hib
  obtain ⟨t2, o2, u2⟩ := hp2 i hib hi2
  exact ⟨t2.trans t1, o2.trans o1, inputValueUpdateOnly_trans _ _ _ u1 u2⟩

theorem applyFormEntry_shape (cbs : List Callback) (nm : String) (v : JSVal)
    (cbs2 : List Callback) (h : applyFormEntry cbs nm v = .ok cbs2) :
    sequenceShapePreserved cbs cbs2 := by
  cases hp : parseCallbackName nm with
  | none =>
      have he : applyFormEntry cbs nm v = .ok cbs := by
        unfold applyFormEntry; rw [hp]
      rw [he] at h
      simp only [Except.ok.injEq] at h
      subst h
      exact sequenceShapePreserved_refl cbs
  | some n =>
      have he : applyFormEntry cbs nm v =
          (match cbs[n]? with
           | some cb =>
               match setInput0Value cb v with
               | .error f => .error f
               | .ok cb2 => .ok (cbs.set n cb2)
           | none => .error JSFault.typeError) := by
        unfold applyFormEntry; rw [hp]
      rw [he] at h
      cases hg : cbs[n]? with
      | none => rw [hg] at h; simp at h
      | some cb =>
          rw [hg] at h
          have h3 : (match setInput0Value cb v with
                     | Except.error f => Except.error f
                     | Except.ok cb2 => Except.ok (cbs.set n cb2)) =
              Except.ok cbs2 := h
          cases hset : setInput0Value cb v with
          | error f => rw [hset] at h3; simp at h3
          | ok cb2 =>
              rw [hset] at h3
              simp only [Except.ok.injEq] at h3
              subst h3
              obtain ⟨hn, hcb⟩ := List.getElem?_eq_some_iff.mp hg
              unfold setInput0Value at hset
              cases hin : cb.input with
              | obj idx onm ov => rw [hin] at hset; simp at hset
              | list entries =>
                  cases entries with
                  | nil => rw [hin] at hset; simp at hset
                  | cons e rest =>
                      rw [hin] at hset
                      simp only [Except.ok.injEq] at hset
                      refine ⟨by simp, fun i hi hi2 => ?_⟩
                      by_cases hieq : i = n
                      · subst hieq
                        have hgetset : (cbs.set i cb2)[i] = cb2 := by
                          simp
                        rw [hgetset, hcb, ← hset]
                        refine ⟨rfl, rfl, ?_⟩
                        exact Or.inr ⟨e.name, e.value, v, rest, by rw [hin], rfl⟩
                      · have hgetset : (cbs.set n cb2)[i] = cbs[i] := by
                          rw [List.getElem_set_ne (by omega)]
                        rw [hgetset]
                        exact ⟨rfl, rfl, inputValueUpdateOnly_refl _⟩

theorem applyFormData_shape (formData : List (String × JSVal)) :
    ∀ (cbs cbs2 : List Callback), applyFormData cbs formData = .ok cbs2 →
      sequenceShapePreserved cbs cbs2 := by
  induction formData with
  | nil =>
      intro cbs cbs2 h
      simp only [applyFormData, Except.ok.injEq] at h
      subst h
      exact sequenceShapePreserved_refl cbs
  | cons hd tl ih =>
      intro cbs cbs2 h
      simp only [applyFormData] at h
      cases hstep : applyFormEntry cbs hd.1 hd.2 with
      | error f => rw [hstep] at h; simp at h
      | ok cbs1 =>
          rw [hstep] at h
          exact sequenceShapePreserved_trans cbs cbs1 cbs2
            (applyFormEntry_shape cbs hd.1 hd.2 cbs1 hstep) (ih cbs1 cbs2 h)

theorem applyFormEntry_nomatch (cbs : List Callback) (nm : String) (v : JSVal)
    (hp : parseCallbackName nm = none) : applyFormEntry cbs nm v = .ok cbs := by
  unfold applyFormEntry; rw [hp]

theorem applyFormEntry_match (cbs : List Callback) (nm : String) (v : JSVal)
    (n : Nat) (hp : parseCallbackName nm = some n) :
    applyFormEntry cbs nm v =
      (match cbs[n]? with
       | some cb =>
           match setInput0Value cb v with
           | .error f => .error f
           | .ok cb2 => .ok (cbs.set n cb2)
       | none => .error JSFault.typeError) := by
  unfold applyFormEntry; rw [hp]

theorem lastFormWrite_foldl (rest : List (String × JSVal)) (n : Nat)
    (a : Option JSVal) :
    rest.foldl (lastFormWriteStep n) a =
      (match lastFormWrite rest n with
       | some w => some w
       | none => a) := by
  induction rest generalizing a with
  | nil => simp [lastFormWrite]
  | cons hd tl ih =>
      simp only [lastFormWrite, List.foldl_cons] at ih ⊢
      rw [ih (lastFormWriteStep n a hd), ih (lastFormWriteStep n none hd)]
      cases hlw : tl.foldl (lastFormWriteStep n) none with
      | some w => simp
      | none =>
          cases hp : parseCallbackName hd.1 with
          | none => simp [lastFormWriteStep, hp]
          | some m =>
              by_cases hm : m = n <;> simp [lastFormWriteStep, hp, hm]

/-- C2: the sequence submitted back after a submit event has exactly
the count and ordering of the sequence last received, with only head
input values changed; and the synthetic login button concatenated for
rendering lives beyond the submitted range, so it is never part of the
submitted callbacks. -/
theorem handleLoginSubmit_echoes_sequence (e : AuthExchange)
    (formData : List (String × JSVal)) (e2 : AuthExchange)
    (h : handleLoginSubmit e formData = .ok e2) :
    e2.callbacks.length = e.callbacks.length ∧
    (∀ i, (hi : i < e.callbacks.length) → (hi2 : i < e2.callbacks.length) →
      e2.callbacks[i].type = e.callbacks[i].type ∧
      e2.callbacks[i].output = e.callbacks[i].output ∧
      inputValueUpdateOnly e.callbacks[i].input e2.callbacks[i].input) ∧
    (needsLoginButton e.callbacks = true →
      callbacksToRender e.callbacks = e.callbacks ++ [loginCallback e.callbacks.length] ∧
      (callbacksToRender e.callbacks).length = e.callbacks.length + 1) ∧
    (needsLoginButton e.callbacks = false →
      callbacksToRender e.callbacks = e.callbacks) ∧
    e2.tokenId = e.tokenId ∧ e2.authId = e.authId ∧ e2.code = e.code := by
  unfold handleLoginSubmit at h
  cases happ : applyFormData e.callbacks formData with
  | error f => rw [happ] at h; simp at h
  | ok cbs2 =>
      rw [happ] at h
      simp only [Except.ok.injEq] at h
      obtain ⟨hl, hp⟩ := applyFormData_shape formData e.callbacks cbs2 happ
      subst h
      refine ⟨hl, hp, ?_, ?_, rfl, rfl, rfl⟩
      · intro hneed
        have hctr : callbacksToRender e.callbacks =
            e.callbacks ++ [loginCallback e.callbacks.length] := by
          unfold callbacksToRender; rw [hneed]; simp
        exact ⟨hctr, by rw [hctr]; simp⟩
      · intro hneed
        unfold callbacksToRender; rw [hneed]; simp

/-- Witness for C2: submitting two name fields over a two descriptor
exchange keeps both descriptors, their types and outputs, with only the
head input values updated. -/
theorem handleLoginSubmit_echoes_sequence_witness :
    handleLoginSubmit
        ⟨none, some (.str "auth"), none,
          [⟨"NameCallback", .list [⟨"IDToken1", .str ""⟩], []⟩,
           ⟨"PasswordCallback", .list [⟨"IDToken2", .str ""⟩], []⟩]⟩
        [("callback_0", .str "alice"), ("callback_1", .str "pw")] =
      .ok ⟨none, some (.str "auth"), none,
          [⟨"NameCallback", .list [⟨"IDToken1", .str "alice"⟩], []⟩,
           ⟨"PasswordCallback", .list [⟨"IDToken2", .str "pw"⟩], []⟩]⟩ ∧
    ([⟨"NameCallback", .list [⟨"IDToken1", .str "alice"⟩], []⟩,
      ⟨"PasswordCallback", .list [⟨"IDToken2", .str "pw"⟩], []⟩] :
        List Callback).length =
      ([⟨"NameCallback", .list [⟨"IDToken1", .str ""⟩], []⟩,
        ⟨"PasswordCallback", .list [⟨"IDToken2", .str ""⟩], []⟩] :
          List Callback).length := by
  refine ⟨rfl, ?_⟩
  have h := handleLoginSubmit_echoes_sequence
      ⟨none, some (.str "auth"), none,
        [⟨"NameCallback", .list [⟨"IDToken1", .str ""⟩], []⟩,
         ⟨"PasswordCallback", .list [⟨"IDToken2", .str ""⟩], []⟩]⟩
      [("callback_0", .str "alice"), ("callback_1", .str "pw")]
      ⟨none, some (.str "auth"), none,
        [⟨"NameCallback", .list [⟨"IDToken1", .str "alice"⟩], []⟩,
         ⟨"PasswordCallback", .list [⟨"IDToken2", .str "pw"⟩], []⟩]⟩ rfl
  exact h.1

theorem applyFormData_lastWrite (formData : List (String × JSVal)) :
    ∀ (cbs cbs2 : List Callback), applyFormData cbs formData = .ok cbs2 →
    ∀ n : Nat,
      (lastFormWrite formData n = none → cbs2[n]? = cbs[n]?) ∧
      (∀ v, lastFormWrite formData n = some v →
        ∃ cbOrig nm v0 rest, cbs[n]? = some cbOrig ∧
          cbOrig.input = .list (⟨nm, v0⟩ :: rest) ∧
          cbs2[n]? = some { cbOrig with input := .list (⟨nm, v⟩ :: rest) }) := by
  induction formData with
  | nil =>
      intro cbs cbs2 h n
      simp only [applyFormData, Except.ok.injEq] at h
      subst h
      exact ⟨fun _ => rfl, fun v hv => by simp [lastFormWrite] at hv⟩
  | cons hd tl ih =>
      intro cbs cbs2 h n
      simp only [applyFormData] at h
      cases hstep : applyFormEntry cbs hd.1 hd.2 with
      | error f => rw [hstep] at h; simp at h
      | ok cbs1 =>
          rw [hstep] at h
          have hIH := ih cbs1 cbs2 h n
          have hconsLW : lastFormWrite (hd :: tl) n =
              (match lastFormWrite tl n with
               | some w => some w
               | none => lastFormWriteStep n none hd) := by
            simp only [lastFormWrite, List.foldl_cons]
            exact lastFormWrite_foldl tl n (lastFormWriteStep n none hd)
          cases hp : parseCallbackName hd.1 with
          | none =>
              have hc1 : cbs1 = cbs := by
                have he := applyFormEntry_nomatch cbs hd.1 hd.2 hp
                rw [he] at hstep
                simp only [Except.ok.injEq] at hstep
                exact hstep.symm
              subst hc1
              have hstep0 : lastFormWriteStep n none hd = none := by
                simp [lastFormWriteStep, hp]
              constructor
              · intro hnone
                rw [hconsLW] at hnone
                cases hlw : lastFormWrite tl n with
                | none => exact hIH.1 hlw
                | some w => rw [hlw] at hnone; simp at hnone
              · intro v hv
                rw [hconsLW] at hv
                cases hlw : lastFormWrite tl n with
                | some w =>
                    rw [hlw] at hv
                    simp only [Option.some.injEq] at hv
                    subst hv
                    exact hIH.2 w hlw
                | none => rw [hlw, hstep0] at hv; simp at hv
          | some m =>
              have hme := applyFormEntry_match cbs hd.1 hd.2 m hp
              rw [hme] at hstep
              cases hg : cbs[m]? with
              | none => rw [hg] at hstep; simp at hstep
              | some cb =>
                  rw [hg] at hstep
                  have hstep2 : (match setInput0Value cb hd.2 with
                                 | Except.error f => Except.error f
                                 | Except.ok cb2 => Except.ok (cbs.set m cb2)) =
                      Except.ok cbs1 := hstep
                  cases hset : setInput0Value cb hd.2 with
                  | error f => rw [hset] at hstep2; simp at hstep2
                  | ok cb2 =>
                      rw [hset] at hstep2
                      simp only [Except.ok.injEq] at hstep2
                      have hmlt : m < cbs.length :=
                        (List.getElem?_eq_some_iff.mp hg).1
                      unfold setInput0Value at hset
                      cases hin : cb.input with
                      | obj idx onm ov => rw [hin] at hset; simp at hset
                      | list entries =>
                          cases entries with
                          | nil => rw [hin] at hset; simp at hset
                          | cons en rest0 =>
                              rw [hin] at hset
                              simp only [Except.ok.injEq] at hset
                              by_cases hnm : n = m
                              · subst hnm
                                have hc1n : cbs1[n]? = some cb2 := by
                                  rw [← hstep2]
                                  exact List.getElem?_set_self hmlt
                                constructor
                                · intro hnone
                                  rw [hconsLW] at hnone
                                  cases hlw : lastFormWrite tl n with
                                  | some w => rw [hlw] at hnone; simp at hnone
                                  | none =>
                                      rw [hlw] at hnone
                                      simp [lastFormWriteStep, hp] at hnone
                                · intro v hv
                                  rw [hconsLW] at hv
                                  cases hlw : lastFormWrite tl n with
                                  | some w =>
                                      rw [hlw] at hv
                                      simp only [Option.some.injEq] at hv
                                      subst hv
                                      obtain ⟨cbO, nm2, v0, rest2, hgo, hin2, heq2⟩ :=
                                        hIH.2 w hlw
                                      rw [hc1n] at hgo
                                      simp only [Option.some.injEq] at hgo
                                      subst hgo
                                      rw [← hset] at hin2 heq2
                                      simp only [CallbackInput.list.injEq,
                                        List.cons.injEq, InputEntry.mk.injEq] at hin2
                                      obtain ⟨⟨hnm2, hv0⟩, hrest2⟩ := hin2
                                      subst hnm2
                                      subst hrest2
                                      refine ⟨cb, en.name, en.value, rest0, hg, ?_, ?_⟩
                                      · rw [hin]
                                      · exact heq2
                                  | none =>
                                      rw [hlw] at hv
                                      simp [lastFormWriteStep, hp] at hv
                                      subst hv
                                      have h21 := hIH.1 hlw
                                      refine ⟨cb, en.name, en.value, rest0, hg, ?_, ?_⟩
                                      · rw [hin]
                                      · rw [h21, hc1n, ← hset]
                              · have hc1n : cbs1[n]? = cbs[n]? := by
                                  rw [← hstep2]
                                  exact List.getElem?_set_ne (fun hc => hnm hc.symm)
                                have hstep0 : lastFormWriteStep n none hd = none := by
                                  simp only [lastFormWriteStep, hp]
                                  rw [if_neg (fun hc => hnm hc.symm)]
                                constructor
                                · intro hnone
                                  rw [hconsLW] at hnone
                                  cases hlw : lastFormWrite tl n with
                                  | some w => rw [hlw] at hnone; simp at hnone
                                  | none => rw [hIH.1 hlw, hc1n]
                                · intro v hv
                                  rw [hconsLW] at hv
                                  cases hlw : lastFormWrite tl n with
                                  | some w =>
                                      rw [hlw] at hv
                                      simp only [Option.some.injEq] at hv
                                      subst hv
                                      obtain ⟨cbO, nm2, v0, rest2, hgo, hin2, heq2⟩ :=
                                        hIH.2 w hlw
                                      rw [hc1n] at hgo
                                      exact ⟨cbO, nm2, v0, rest2, hgo, hin2, heq2⟩
                                  | none => rw [hlw, hstep0] at hv; simp at hv

theorem applyFormData_all_nomatch :
    ∀ (formData : List (String × JSVal)) (cbs : List Callback),
      (∀ p ∈ formData, parseCallbackName p.1 = none) →
      applyFormData cbs formData = .ok cbs := by
  intro formData
  induction formData with
  | nil => intro cbs hall; rfl
  | cons hd tl ih =>
      intro cbs hall
      simp only [applyFormData]
      rw [applyFormEntry_nomatch cbs hd.1 hd.2 (hall hd (by simp))]
      exact ih cbs (fun p hp => hall p (by simp [hp]))

/-- C3: for every submit event, the value of the last form field named
callback_N is written into the head input value of the Nth descriptor
before re-submission, and a descriptor named by no field, or any field
whose name does not match the pattern, leaves the exchange untouched. -/
theorem handleLoginSubmit_roundtrip (e : AuthExchange)
    (formData : List (String × JSVal)) (e2 : AuthExchange)
    (h : handleLoginSubmit e formData = .ok e2) :
    ((∀ p ∈ formData, parseCallbackName p.1 = none) → e2 = e) ∧
    (∀ n : Nat,
      (lastFormWrite formData n = none → e2.callbacks[n]? = e.callbacks[n]?) ∧
      (∀ v, lastFormWrite formData n = some v →
        ∃ cbOrig nm v0 rest, e.callbacks[n]? = some cbOrig ∧
          cbOrig.input = .list (⟨nm, v0⟩ :: rest) ∧
          e2.callbacks[n]? = some { cbOrig with input := .list (⟨nm, v⟩ :: rest) })) := by
  unfold handleLoginSubmit at h
  cases happ : applyFormData e.callbacks formData with
  | error f => rw [happ] at h; simp at h
  | ok cbs2 =>
      rw [happ] at h
      simp only [Except.ok.injEq] at h
      subst h
      constructor
      · intro hall
        have hid := applyFormData_all_nomatch formData e.callbacks hall
        rw [hid] at happ
        simp only [Except.ok.injEq] at happ
        subst happ
        rfl
      · exact applyFormData_lastWrite formData e.callbacks cbs2 happ

/-- Witness for C3: the field callback_2 with value alice updates the
head input value of the third descriptor, and a field with an
unrelated name leaves everything unchanged. -/
theorem handleLoginSubmit_roundtrip_witness :
    ((⟨none, none, none,
        [⟨"NameCallback", .list [⟨"IDToken1", .str ""⟩], []⟩,
         ⟨"NameCallback", .list [⟨"IDToken2", .str ""⟩], []⟩,
         ⟨"NameCallback", .list [⟨"IDToken3", .str "x"⟩], []⟩]⟩ : AuthExchange) =
      ⟨none, none, none,
        [⟨"NameCallback", .list [⟨"IDToken1", .str ""⟩], []⟩,
         ⟨"NameCallback", .list [⟨"IDToken2", .str ""⟩], []⟩,
         ⟨"NameCallback", .list [⟨"IDToken3", .str "x"⟩], []⟩]⟩) ∧
    (∃ cbOrig nm v0 rest,
      ([⟨"NameCallback", .list [⟨"IDToken1", .str ""⟩], []⟩,
        ⟨"NameCallback", .list [⟨"IDToken2", .str ""⟩], []⟩,
        ⟨"NameCallback", .list [⟨"IDToken3", .str "x"⟩], []⟩] :
          List Callback)[2]? = some cbOrig ∧
      cbOrig.input = .list (⟨nm, v0⟩ :: rest) ∧
      ([⟨"NameCallback", .list [⟨"IDToken1", .str ""⟩], []⟩,
        ⟨"NameCallback", .list [⟨"IDToken2", .str ""⟩], []⟩,
        ⟨"NameCallback", .list [⟨"IDToken3", .str "alice"⟩], []⟩] :
          List Callback)[2]? =
        some { cbOrig with input := .list (⟨nm, .str "alice"⟩ :: rest) }) := by
  constructor
  · exact (handleLoginSubmit_roundtrip
      ⟨none, none, none,
        [⟨"NameCallback", .list [⟨"IDToken1", .str ""⟩], []⟩,
         ⟨"NameCallback", .list [⟨"IDToken2", .str ""⟩], []⟩,
         ⟨"NameCallback", .list [⟨"IDToken3", .str "x"⟩], []⟩]⟩
      [("username", .str "ignored")] _ rfl).1
      (by intro p hp; simp at hp; rw [hp]; rfl)
  · exact (handleLoginSubmit_roundtrip
      ⟨none, none, none,
        [⟨"NameCallback", .list [⟨"IDToken1", .str ""⟩], []⟩,
         ⟨"NameCallback", .list [⟨"IDToken2", .str ""⟩], []⟩,
         ⟨"NameCallback", .list [⟨"IDToken3", .str "x"⟩], []⟩]⟩
      [("callback_2", .str "alice"), ("other", .str "zz")] _ rfl).2 2
      |>.2 (.str "alice") rfl

theorem JSVal.eqStr_eq_false (v : JSVal) (s : String) (h : v ≠ .str s) :
    v.eqStr s = false := by
  cases v with
  | str t =>
      simp only [JSVal.eqStr, beq_eq_false_iff_ne, ne_eq]
      intro ht; exact h (by rw [ht])
  | undefined => rfl
  | bool b => rfl
  | num n => rfl
  | arr xs => rfl

/-- C5: a TextOutputCallback whose messageType output is the string 4
renders as a script unit holding the message output verbatim; any
other messageType renders as a static message block whose severity tag
is the mapping of the messageType value, sending 0, 1 and 2 to
INFORMATION, WARNING and ERROR. -/
theorem renderCallback_textOutput (cb : Callback) (i : Nat) (t m : OutputEntry)
    (p : String)
    (htype : cb.type = "TextOutputCallback")
    (hp : computePrompt cb.output = .ok p)
    (ht : findName cb.output "messageType" = some t)
    (hm : findName cb.output "message" = some m) :
    (t.value = .str "4" →
      renderCallback cb i = .ok ⟨[.script m.value], [], none⟩) ∧
    (t.value ≠ .str "4" →
      renderCallback cb i =
        .ok ⟨[.messageBlock (cbFieldName i) (messageTypeMap t.value) m.value],
             [], none⟩) ∧
    messageTypeMap (.str "0") = .str "INFORMATION" ∧
    messageTypeMap (.str "1") = .str "WARNING" ∧
    messageTypeMap (.str "2") = .str "ERROR" := by
  obtain ⟨ty, inp, outp⟩ := cb
  dsimp only at htype hp ht hm
  subst htype
  have heq : renderCallback ⟨"TextOutputCallback", inp, outp⟩ i =
      (if (dotValue (findName outp "messageType")).eqStr "4" then
         Except.ok ⟨[renderTextOutputScript i (dotValue (findName outp "message"))],
                    [], none⟩
       else
         Except.ok ⟨[renderTextOutputMessage i (dotValue (findName outp "message"))
                      (messageTypeMap (dotValue (findName outp "messageType")))],
                    [], none⟩) := by
    unfold renderCallback
    rw [hp]
    rfl
  refine ⟨?_, ?_, rfl, rfl, rfl⟩
  · intro h4
    rw [heq, ht, hm]
    simp only [dotValue]
    rw [h4]
    simp [JSVal.eqStr, renderTextOutputScript]
  · intro hne
    rw [heq, ht, hm]
    simp only [dotValue]
    rw [JSVal.eqStr_eq_false t.value "4" hne]
    simp [renderTextOutputMessage]

/-- Witness for C5: the sentinel 4 yields a script unit carrying the
message verbatim and messageType 1 yields a WARNING tagged block. -/
theorem renderCallback_textOutput_witness :
    renderCallback ⟨"TextOutputCallback", .list [],
        [⟨"messageType", .str "4"⟩, ⟨"message", .str "alert(1)"⟩]⟩ 0 =
      .ok ⟨[.script (.str "alert(1)")], [], none⟩ ∧
    renderCallback ⟨"TextOutputCallback", .list [],
        [⟨"messageType", .str "1"⟩, ⟨"message", .str "warn"⟩]⟩ 0 =
      .ok ⟨[.messageBlock "callback_0" (.str "WARNING") (.str "warn")], [], none⟩ := by
  constructor
  · exact (renderCallback_textOutput
      ⟨"TextOutputCallback", .list [],
        [⟨"messageType", .str "4"⟩, ⟨"message", .str "alert(1)"⟩]⟩ 0
      ⟨"messageType", .str "4"⟩ ⟨"message", .str "alert(1)"⟩ ""
      rfl rfl rfl rfl).1 rfl
  · exact (renderCallback_textOutput
      ⟨"TextOutputCallback", .list [],
        [⟨"messageType", .str "1"⟩, ⟨"message", .str "warn"⟩]⟩ 0
      ⟨"messageType", .str "1"⟩ ⟨"message", .str "warn"⟩ ""
      rfl rfl rfl rfl).2.1 (by simp)

/-- C6: a ConfirmationCallback with an options array renders one
submit control per option; with a single option that option is marked
default whatever the outputs hold, and with several options exactly
the option at the index named by the defaultOption output is marked. -/
theorem renderCallback_confirmation (cb : Callback) (i : Nat) (onm : String)
    (opts : List JSVal) (p : String)
    (htype : cb.type = "ConfirmationCallback")
    (hp : computePrompt cb.output = .ok p)
    (ho : findName cb.output "options" = some ⟨onm, .arr opts⟩) :
    renderCallback cb i =
      .ok ⟨opts.mapIdx (fun key opt =>
            .submitControl (cbFieldName i) key opt
              (confirmationDefault cb.output opts.length key)), [], none⟩ ∧
    confirmationDefault cb.output 1 0 = true ∧
    (∀ (d : OutputEntry) (dv : Int), 1 < opts.length →
      findName cb.output "defaultOption" = some d → d.value = .num dv →
      ∀ key : Nat,
        (confirmationDefault cb.output opts.length key = true ↔ (key : Int) = dv)) := by
  obtain ⟨ty, inp, outp⟩ := cb
  dsimp only at htype hp ho ⊢
  subst htype
  refine ⟨?_, rfl, ?_⟩
  · unfold renderCallback
    rw [hp, ho]
    rfl
  · intro d dv hlen hd hdv key
    unfold confirmationDefault
    rw [if_pos hlen, hd]
    show (JSVal.eqNum d.value (key : Int) = true) ↔ ((key : Int) = dv)
    rw [hdv]
    show ((dv == (key : Int)) = true) ↔ ((key : Int) = dv)
    rw [beq_iff_eq]
    exact eq_comm

/-- Witness for C6: two options with defaultOption 1 mark exactly the
second control default, and a single option is marked default although
a defaultOption output naming another index is present. -/
theorem renderCallback_confirmation_witness :
    renderCallback ⟨"ConfirmationCallback", .list [],
        [⟨"options", .arr [.str "Yes", .str "No"]⟩, ⟨"defaultOption", .num 1⟩]⟩ 0 =
      .ok ⟨[.submitControl "callback_0" 0 (.str "Yes") false,
            .submitControl "callback_0" 1 (.str "No") true], [], none⟩ ∧
    renderCallback ⟨"ConfirmationCallback", .list [],
        [⟨"options", .arr [.str "OnlyOne"]⟩, ⟨"defaultOption", .num 5⟩]⟩ 0 =
      .ok ⟨[.submitControl "callback_0" 0 (.str "OnlyOne") true], [], none⟩ := by
  constructor
  · exact (renderCallback_confirmation
      ⟨"ConfirmationCallback", .list [],
        [⟨"options", .arr [.str "Yes", .str "No"]⟩, ⟨"defaultOption", .num 1⟩]⟩ 0
      "options" [.str "Yes", .str "No"] "" rfl rfl rfl).1
  · exact (renderCallback_confirmation
      ⟨"ConfirmationCallback", .list [],
        [⟨"options", .arr [.str "OnlyOne"]⟩, ⟨"defaultOption", .num 5⟩]⟩ 0
      "options" [.str "OnlyOne"] "" rfl rfl rfl).1

/-- C7: evaluation of the source at the failing input.  A
ChoiceCallback whose head input value is the number 1 with two choices
renders with no entry pre-selected, since the active check reads the
value property of the input sequence, which is undefined for the JSON
array shape and never strictly equals a numeric key. -/
theorem renderCallback_choice_noPreselect :
    renderCallback ⟨"ChoiceCallback", .list [⟨"IDToken1", .num 1⟩],
        [⟨"choices", .arr [.str "a", .str "b"]⟩]⟩ 0 =
      .ok ⟨[.choiceSelect "callback_0" ""
            [⟨false, 0, .str "a"⟩, ⟨false, 1, .str "b"⟩]], [], none⟩ := rfl

/-- C8: evaluation of the source at the failing input.  The
PollingWaitCallback case schedules the pollingInProgress flip after
the waitTime and performs no resubmission, but the main module renders
the hidden field template, dropping the message text entirely. -/
theorem renderCallback_pollingWait_eval :
    renderCallback ⟨"PollingWaitCallback", .list [⟨"IDToken1", .str ""⟩],
        [⟨"waitTime", .num 1000⟩, ⟨"message", .str "Please wait"⟩]⟩ 0 =
      .ok ⟨[.hiddenField .undefined "callback_0" ""],
           [⟨.num 1000, true, false⟩], none⟩ := rfl

/-- The C9 reading stated from the spec words, for comparison with the
source rendering: the hidden unit's value attribute equals the
descriptor's current head input value. -/
def hiddenValueSeeded (cb : Callback) (i : Nat) : Prop :=
  ∃ id s, input0value cb.input = .ok (.str s) ∧
    renderCallback cb i = .ok ⟨[.hiddenField id (cbFieldName i) s], [], none⟩

/-- Counterexample to C9: a HiddenValueCallback whose input value is
the string secret renders a hidden field whose value attribute is
empty, not secret. -/
theorem renderCallback_hiddenValue_not_seeded :
    ¬ hiddenValueSeeded
        ⟨"HiddenValueCallback", .list [⟨"IDToken1", .str "secret"⟩], []⟩ 0 := by
  rintro ⟨id, s, h1, h2⟩
  have hs : s = "secret" := by
    have h1a : (Except.ok (JSVal.str "secret") : Except JSFault JSVal) =
        .ok (.str s) := h1
    simp only [Except.ok.injEq, JSVal.str.injEq] at h1a
    exact h1a.symm
  subst hs
  have hr : renderCallback
      ⟨"HiddenValueCallback", .list [⟨"IDToken1", .str "secret"⟩], []⟩ 0 =
      .ok ⟨[.hiddenField .undefined "callback_0" ""], [], none⟩ := rfl
  rw [hr] at h2
  simp at h2

/-- C9 amended: the hidden unit's value attribute is always the empty
string of the template, and its id is the value property of the input,
which is undefined whenever the input has the sequence shape. -/
theorem renderCallback_hiddenValue (cb : Callback) (i : Nat) (p : String)
    (htype : cb.type = "HiddenValueCallback")
    (hp : computePrompt cb.output = .ok p) :
    renderCallback cb i =
      .ok ⟨[.hiddenField cb.input.dotValue (cbFieldName i) ""], [], none⟩ ∧
    (∀ entries, cb.input = .list entries → cb.input.dotValue = .undefined) := by
  obtain ⟨ty, inp, outp⟩ := cb
  dsimp only at htype hp ⊢
  subst htype
  constructor
  · unfold renderCallback; rw [hp]; rfl
  · intro entries he; rw [he]; rfl

/-- Witness for the amended C9 at the counterexample input. -/
theorem renderCallback_hiddenValue_witness :
    renderCallback
        ⟨"HiddenValueCallback", .list [⟨"IDToken1", .str "secret"⟩], []⟩ 0 =
      .ok ⟨[.hiddenField .undefined "callback_0" ""], [], none⟩ :=
  (renderCallback_hiddenValue
    ⟨"HiddenValueCallback", .list [⟨"IDToken1", .str "secret"⟩], []⟩ 0 ""
    rfl rfl).1

theorem renderCallback_textOutput_reduce (inp : CallbackInput)
    (outp : List OutputEntry) (i : Nat) (p : String)
    (hp : computePrompt outp = .ok p) :
    renderCallback ⟨"TextOutputCallback", inp, outp⟩ i =
      (if (dotValue (findName outp "messageType")).eqStr "4" then
         Except.ok ⟨[renderTextOutputScript i (dotValue (findName outp "message"))],
                    [], none⟩
       else
         Except.ok ⟨[renderTextOutputMessage i (dotValue (findName outp "message"))
                      (messageTypeMap (dotValue (findName outp "messageType")))],
                    [], none⟩) := by
  unfold renderCallback; rw [hp]; rfl

theorem renderCallback_redirect_reduce (inp : CallbackInput)
    (outp : List OutputEntry) (i : Nat) (p : String)
    (hp : computePrompt outp = .ok p)
    (hdata : findName outp "redirectData" = none) :
    renderCallback ⟨"RedirectCallback", inp, outp⟩ i =
      .ok ⟨[], [], some ⟨dotValue (findName outp "redirectUrl"),
                         dotValue (findName outp "redirectMethod"), []⟩⟩ := by
  unfold renderCallback; rw [hp, hdata]; rfl

theorem renderCallback_pollingWait_reduce (inp : CallbackInput)
    (outp : List OutputEntry) (i : Nat) (p : String)
    (hp : computePrompt outp = .ok p) :
    renderCallback ⟨"PollingWaitCallback", inp, outp⟩ i =
      .ok ⟨[.hiddenField (CallbackInput.dotValue inp) (cbFieldName i) ""],
           [⟨dotValue (findName outp "waitTime"), true, false⟩], none⟩ := by
  unfold renderCallback; rw [hp]; rfl

/-- Counterexample to C10: descriptors of the three types with every
expected output entry absent still render without any fault, because
the failed lookup is the boolean false and reading its value property
yields undefined instead of throwing. -/
theorem renderCallback_missingOutputs_no_fault :
    renderCallback ⟨"TextOutputCallback", .list [], []⟩ 0 =
      .ok ⟨[.messageBlock "callback_0" .undefined .undefined], [], none⟩ ∧
    renderCallback ⟨"RedirectCallback", .list [], []⟩ 0 =
      .ok ⟨[], [], some ⟨.undefined, .undefined, []⟩⟩ ∧
    renderCallback ⟨"PollingWaitCallback", .list [], []⟩ 0 =
      .ok ⟨[.hiddenField .undefined "callback_0" ""], [⟨.undefined, true, false⟩], none⟩ ∧
    renderCallback ⟨"TextOutputCallback", .list [], []⟩ 0 ≠ .error .typeError ∧
    renderCallback ⟨"RedirectCallback", .list [], []⟩ 0 ≠ .error .typeError ∧
    renderCallback ⟨"PollingWaitCallback", .list [], []⟩ 0 ≠ .error .typeError := by
  refine ⟨rfl, rfl, rfl, ?_, ?_, ?_⟩ <;> intro h <;> exact Except.noConfusion h

/-- C10 amended: for the three types, an absent expected output entry
flows through as undefined and renderCallback still completes: the
text output renders a block or script with undefined holes, the
redirect navigates to an undefined url and method, and the polling
wait schedules a timer with an undefined delay. -/
theorem renderCallback_missingOutputs (cb : Callback) (i : Nat) (p : String)
    (hp : computePrompt cb.output = .ok p) :
    (cb.type = "TextOutputCallback" →
      renderCallback cb i =
        .ok ⟨[if (dotValue (findName cb.output "messageType")).eqStr "4" then
                .script (dotValue (findName cb.output "message"))
              else
                .messageBlock (cbFieldName i)
                  (messageTypeMap (dotValue (findName cb.output "messageType")))
                  (dotValue (findName cb.output "message"))], [], none⟩) ∧
    (cb.type = "RedirectCallback" → findName cb.output "redirectData" = none →
      renderCallback cb i =
        .ok ⟨[], [], some ⟨dotValue (findName cb.output "redirectUrl"),
                           dotValue (findName cb.output "redirectMethod"), []⟩⟩) ∧
    (cb.type = "PollingWaitCallback" →
      renderCallback cb i =
        .ok ⟨[.hiddenField cb.input.dotValue (cbFieldName i) ""],
             [⟨dotValue (findName cb.output "waitTime"), true, false⟩], none⟩) := by
  obtain ⟨ty, inp, outp⟩ := cb
  dsimp only at hp ⊢
  refine ⟨?_, ?_, ?_⟩
  · intro htype
    subst htype
    rw [renderCallback_textOutput_reduce inp outp i p hp]
    cases hc : (dotValue (findName outp "messageType")).eqStr "4" with
    | true => simp [hc, renderTextOutputScript]
    | false => simp [hc, renderTextOutputMessage]
  · intro htype hdata
    subst htype
    exact renderCallback_redirect_reduce inp outp i p hp hdata
  · intro htype
    subst htype
    exact renderCallback_pollingWait_reduce inp outp i p hp

/-- Witness for the amended C10: one expected entry absent in each of
the three cases still yields a completed rendering with undefined in
the corresponding hole. -/
theorem renderCallback_missingOutputs_witness :
    renderCallback ⟨"TextOutputCallback", .list [], [⟨"message", .str "hi"⟩]⟩ 0 =
      .ok ⟨[.messageBlock "callback_0" .undefined (.str "hi")], [], none⟩ ∧
    renderCallback ⟨"RedirectCallback", .list [], [⟨"redirectUrl", .str "u"⟩]⟩ 0 =
      .ok ⟨[], [], some ⟨.str "u", .undefined, []⟩⟩ ∧
    renderCallback ⟨"PollingWaitCallback", .list [], [⟨"message", .str "m"⟩]⟩ 0 =
      .ok ⟨[.hiddenField .undefined "callback_0" ""], [⟨.undefined, true, false⟩], none⟩ := by
  refine ⟨?_, ?_, ?_⟩
  · exact (renderCallback_missingOutputs
      ⟨"TextOutputCallback", .list [], [⟨"message", .str "hi"⟩]⟩ 0 "" rfl).1 rfl
  · exact (renderCallback_missingOutputs
      ⟨"RedirectCallback", .list [], [⟨"redirectUrl", .str "u"⟩]⟩ 0 "" rfl).2.1 rfl rfl
  · exact (renderCallback_missingOutputs
      ⟨"PollingWaitCallback", .list [], [⟨"message", .str "m"⟩]⟩ 0 "" rfl).2.2 rfl

end EmbeddedLogin
